import Mathlib

/-!
# psycopg: type casters (`typecast.c`) and large-object guards (`lobject.h`)

A shallow embedding of the caster objects, the two type dictionaries and the
exception-raising guards of the large-object type, followed by the properties
established about them.

Conventions of the embedding:

* C `int`/`long` values are `Int`; a C truth test `if (x)` is `x ≠ 0`.
* A pointer that may be `NULL` is an `Option`.
* Type identifiers are integers, so a `values` tuple is a `List Int`.
* Reading outside an array or through a `NULL` pointer is undefined in C; the
  embedding gives such a step its own outcome instead of a value.
* Reference counting and allocation failure are not represented.
-/

namespace Psycopg

/-! ## Host objects -/

/-- Exception classes raised by the embedded code. -/
inductive PyExc where
  | InterfaceError
  | ProgrammingError
  | TypeError
  deriving DecidableEq, Repr

/-- Host values handed to, and returned by, conversion routines: `None`, an
integer, a string, or some other object known only by its identity (a cursor,
for instance). -/
inductive PyValue where
  | None
  | PyInt (n : Int)
  | PyString (s : String)
  | Object (id : Nat)
  deriving DecidableEq, Repr

/-- The C type `typecast_function`: a routine of a string and a cursor; the
result `none` is the C `NULL` (an exception is pending). -/
abbrev typecast_function := PyValue → PyValue → Option PyValue

/-- A host object as the constructors of casters receive it: a plain value, a
tuple of type identifiers, or a callable of two arguments. -/
inductive PyObject where
  | Value (v : PyValue)
  | Tuple (items : List Int)
  | Callable (f : PyValue → PyValue → Option PyValue)

/-- The singleton `Py_None`. -/
def Py_None : PyObject := PyObject.Value PyValue.None

/-- The test `cast != Py_None` of `typecast_new`. -/
def PyObject.isNone : PyObject → Bool
  | PyObject.Value PyValue.None => true
  | _ => false

/-- The struct `typecastObject`: display name, tuple of type identifiers, and
the two conversion slots (`ccast` a C routine, `pcast` a host object). -/
structure typecastObject where
  name : PyObject
  values : List Int
  ccast : Option typecast_function
  pcast : Option PyObject

/-- An array of `long`, known by the name of the C object it is (pointer
comparison is comparison of `sym`) and by its cells. -/
structure LongArray where
  sym : String
  cells : List Int
  deriving DecidableEq, Repr

/-- The struct `typecastObject_initlist`: name, zero-terminated array of type
identifiers, C conversion routine. -/
structure typecastObject_initlist where
  name : Option String
  values : LongArray
  cast : Option typecast_function

/-! ## Library primitives -/

/-- A dictionary as the list of its entries, at most one per key when built
with `PyDict_SetItem`. -/
abbrev PyDict (κ α : Type) := List (κ × α)

/-- The call `PyDict_New()`. -/
def PyDict_New {κ α : Type} : PyDict κ α := []

/-- The call `PyDict_SetItem(d, key, value)`: binds `key` to `value`, replacing
the binding `key` had, if any. -/
def PyDict_SetItem {κ α : Type} [DecidableEq κ] : PyDict κ α → κ → α → PyDict κ α
  | [], key, value => [(key, value)]
  | (k, x) :: rest, key, value =>
    if k = key then (key, value) :: rest else (k, x) :: PyDict_SetItem rest key value

/-- The call `PyDict_GetItem(d, key)`: the value bound to `key`, if any. -/
def PyDict_GetItem {κ α : Type} [DecidableEq κ] : PyDict κ α → κ → Option α
  | [], _ => none
  | (k, x) :: rest, key => if k = key then some x else PyDict_GetItem rest key

/-- The calls `PyObject_Length(t)` and `PyTuple_Size(t)` on a tuple. -/
def PyObject_Length (t : List Int) : Int := (t.length : Int)

/-- The access `PyTuple_GET_ITEM(t, i)`; `none` when `i` is outside the tuple,
where the C expression reads memory the tuple does not own. -/
def PyTuple_GET_ITEM (t : List Int) (i : Nat) : Option Int := t.get? i

/-- The call `PySequence_Contains(t, item)` on a tuple of integers: 1 when
`item` occurs in `t`, 0 otherwise (comparing integers cannot fail, so -1 does
not arise). -/
def PySequence_Contains (t : List Int) (item : Int) : Int :=
  if item ∈ t then 1 else 0

/-! ## The type dictionaries -/

/-- The global variables of `typecast.c`. -/
structure Globals where
  psyco_types : PyDict Int typecastObject
  psyco_default_cast : Option typecastObject
  psyco_binary_types : PyDict Int typecastObject
  psyco_default_binary_cast : Option typecastObject

/-- The body of the `for` loop of `typecast_add`, run over the items of
`type->values` from index 0 upwards. -/
def typecast_add_loop (obj : typecastObject) (binary : Int) : List Int → Globals → Globals
  | [], g => g
  | val :: rest, g =>
    if binary ≠ 0 then
      typecast_add_loop obj binary rest
        { g with psyco_binary_types := PyDict_SetItem g.psyco_binary_types val obj }
    else
      typecast_add_loop obj binary rest
        { g with psyco_types := PyDict_SetItem g.psyco_types val obj }

/-- The function `typecast_add`: add a type object to the dictionary chosen by
`binary`; returns 0 and the updated globals. -/
def typecast_add (g : Globals) (obj : typecastObject) (binary : Int) : Int × Globals :=
  (0, typecast_add_loop obj binary obj.values g)

/-- The dictionary `typecast_add` writes to for a given `binary` flag. -/
def selected (g : Globals) (binary : Int) : PyDict Int typecastObject :=
  if binary ≠ 0 then g.psyco_binary_types else g.psyco_types

/-- The dictionary of the other format. -/
def unselected (g : Globals) (binary : Int) : PyDict Int typecastObject :=
  if binary ≠ 0 then g.psyco_types else g.psyco_binary_types

/-! ## Caster objects -/

/-- The constructor `typecast_new(name, values, cast)`; `name` and `cast` may
be `NULL`. The caster keeps `values` as given, takes `None` for a missing
name, and stores `cast` as `pcast` unless it is `NULL` or `None`. -/
def typecast_new (name : Option PyObject) (values : List Int) (cast : Option PyObject) :
    typecastObject :=
  { name := match name with
      | some n => n
      | none => Py_None
    values := values
    pcast := match cast with
      | some c => if c.isNone then none else some c
      | none => none
    ccast := none }

/-- What a function of the host-level interface yields: an object, `NULL` with
an exception of the given class pending, or no defined behaviour. -/
inductive Outcome (α : Type) where
  | ok (a : α)
  | error (exc : PyExc)
  | undefined

/-- The function `typecast_from_python`, on the three slots `values`, `name`,
`castobj` that its argument parsing (format `O!|O!O`) fills: `values` is
required and must be a tuple, `name` must be a string when given. The local
`name` has no initial value, so a call without `name` hands `typecast_new` an
indeterminate pointer. -/
def typecast_from_python (values name castobj : Option PyObject) : Outcome typecastObject :=
  match values with
  | some (PyObject.Tuple v) =>
    match name with
    | none => Outcome.undefined
    | some (PyObject.Value (PyValue.PyString s)) =>
      Outcome.ok (typecast_new (some (PyObject.Value (PyValue.PyString s))) v castobj)
    | some _ => Outcome.error PyExc.TypeError
  | _ => Outcome.error PyExc.TypeError

/-- The loop `while (type->values[len] != 0) len++;` of `typecast_from_c`:
the index of the first zero cell; `none` when the scan leaves the array. -/
def typecast_from_c_len : List Int → Option Nat
  | [] => none
  | x :: rest => if x ≠ 0 then (typecast_from_c_len rest).map (· + 1) else some 0

/-- The function `typecast_from_c`: the caster of an initialiser entry. Its
tuple holds the cells before the first zero; `none` when the entry has no name
or its array no terminator (no defined behaviour). -/
def typecast_from_c (type : typecastObject_initlist) : Option typecastObject :=
  match typecast_from_c_len type.values.cells, type.name with
  | some len, some name =>
    let tuple := type.values.cells.take len
    let obj := typecast_new (some (PyObject.Value (PyValue.PyString name))) tuple none
    some { obj with ccast := type.cast, pcast := none }
  | _, _ => none

/-- Modelled from the spec: the routine `typecast_STRING_cast` lives in
`typecast_basic.c`, which is not among the sources; the spec describes the
default caster as returning the raw text unchanged. -/
def typecast_STRING_cast : typecast_function := fun s _ => some s

/-- The array `typecast_default_DEFAULT`. -/
def typecast_default_DEFAULT : LongArray :=
  { sym := "typecast_default_DEFAULT", cells := [0] }

/-- The initialiser `typecast_default`. -/
def typecast_default : typecastObject_initlist :=
  { name := some "DEFAULT", values := typecast_default_DEFAULT, cast := some typecast_STRING_cast }

/-- An entry of the module namespace `dict`: one of the two type dictionaries
(held by reference, so named) or a caster. -/
inductive ModuleValue where
  | global (name : String)
  | caster (t : typecastObject)

/-- The first loop of `typecast_init`, over `typecast_builtins` up to the entry
whose name is `NULL`: build the caster, add it to `psyco_types`, export it
under its name, and remember it as the default binary caster when its array is
`typecast_BINARY_types`. Yields the return code so far (0 to go on), or `none`
when the table has no final entry or `typecast_from_c` is undefined. -/
def typecast_init_builtins (typecast_BINARY_types : LongArray) :
    List typecastObject_initlist → Globals → PyDict String ModuleValue →
    Option (Int × Globals × PyDict String ModuleValue)
  | [], _, _ => none
  | e :: rest, g, dict =>
    match e.name with
    | none => some (0, g, dict)
    | some name =>
      match typecast_from_c e with
      | none => none
      | some t =>
        let r := typecast_add g t 0
        if r.1 ≠ 0 then some (-1, r.2, dict)
        else
          let dict1 := PyDict_SetItem dict name (ModuleValue.caster t)
          let g1 : Globals :=
            if e.values.sym = typecast_BINARY_types.sym then
              { r.2 with psyco_default_binary_cast := some t }
            else r.2
          typecast_init_builtins typecast_BINARY_types rest g1 dict1

/-- The loops of `typecast_init` over the date/time tables: build each caster
and export it under its name, without adding it to a type dictionary. -/
def typecast_init_named : List typecastObject_initlist → PyDict String ModuleValue →
    Option (PyDict String ModuleValue)
  | [], _ => none
  | e :: rest, dict =>
    match e.name with
    | none => some dict
    | some name =>
      match typecast_from_c e with
      | none => none
      | some t => typecast_init_named rest (PyDict_SetItem dict name (ModuleValue.caster t))

/-- The function `typecast_init`: create the dictionaries and the default
types. The tables `typecast_builtins`, `typecast_BINARY_types` and the
date/time tables are defined outside the sources and are parameters here; a
date/time table is `none` when its section is compiled out. The globals the
function does not assign keep the value they had. -/
def typecast_init (typecast_builtins : List typecastObject_initlist)
    (typecast_BINARY_types : LongArray)
    (typecast_mxdatetime typecast_pydatetime : Option (List typecastObject_initlist))
    (g0 : Globals) (dict : PyDict String ModuleValue) :
    Option (Int × Globals × PyDict String ModuleValue) :=
  let g1 : Globals := { g0 with psyco_types := PyDict_New, psyco_binary_types := PyDict_New }
  let dict1 := PyDict_SetItem dict "string_types" (ModuleValue.global "psyco_types")
  let dict2 := PyDict_SetItem dict1 "binary_types" (ModuleValue.global "psyco_binary_types")
  match typecast_init_builtins typecast_BINARY_types typecast_builtins g1 dict2 with
  | none => none
  | some (rc, g2, dict3) =>
    if rc ≠ 0 then some (rc, g2, dict3)
    else
      match typecast_from_c typecast_default with
      | none => none
      | some d =>
        let g3 : Globals := { g2 with psyco_default_cast := some d }
        let mx := match typecast_mxdatetime with
          | none => some dict3
          | some tbl => typecast_init_named tbl dict3
        match mx with
        | none => none
        | some dict4 =>
          let py := match typecast_pydatetime with
            | none => some dict4
            | some tbl => typecast_init_named tbl dict4
          match py with
          | none => none
          | some dict5 => some (0, g3, dict5)

/-- An operand of a comparison as `typecast_coerce` sees it: a caster or any
other host object. -/
inductive Operand where
  | typecast (t : typecastObject)
  | object (o : PyObject)

/-- The function `typecast_coerce`: when the left operand is a caster, an
integer on the right becomes the anonymous caster of that one identifier and a
caster on the right is kept; anything else is a `TypeError`. The result is the
pair of operands after coercion (C return value 0) or the exception (-1). -/
def typecast_coerce (pv pw : Operand) : Except (PyExc × String) (Operand × Operand) :=
  match pv, pw with
  | Operand.typecast _, Operand.object (PyObject.Value (PyValue.PyInt n)) =>
    let args := [n]
    let coer := typecast_new none args none
    Except.ok (pv, Operand.typecast coer)
  | Operand.typecast _, Operand.typecast _ => Except.ok (pv, pw)
  | _, _ => Except.error (PyExc.TypeError, "psycopg type coercion failed")

/-- What `typecast_cmp` hands back: its C return value, or nothing defined
when it reads item 0 of an empty tuple. -/
inductive CmpResult where
  | ret (res : Int)
  | undefined
  deriving DecidableEq, Repr

/-- The condition under which `typecast_cmp` calls itself with the arguments
exchanged. -/
def typecast_cmp_exchange (self v : typecastObject) : Prop :=
  PyObject_Length v.values > 1 ∧ PyObject_Length self.values = 1

instance (self v : typecastObject) : Decidable (typecast_cmp_exchange self v) := by
  unfold typecast_cmp_exchange; infer_instance

/-- The function `typecast_cmp`, with a bound on the number of nested
activations: `none` when the bound is used up before a result is reached. -/
def typecast_cmp : Nat → typecastObject → typecastObject → Option CmpResult
  | 0, _, _ => none
  | fuel + 1, self, v =>
    if typecast_cmp_exchange self v then
      typecast_cmp fuel v self
    else
      match PyTuple_GET_ITEM v.values 0 with
      | none => some CmpResult.undefined
      | some item =>
        let res := PySequence_Contains self.values item
        if res < 0 then some (CmpResult.ret res)
        else some (CmpResult.ret (if res = 1 then 0 else 1))

/-- What happens during `typecast_call` besides computing the result: a C
routine is entered, or a host callable is invoked, on a string and a cursor. -/
inductive Event where
  | c_cast (string cursor : PyValue)
  | python_call (string cursor : PyValue)
  deriving DecidableEq, Repr

/-- The call `PyObject_CallFunction(callable, "OO", string, cursor)`: invokes a
callable on the two arguments; any other object is not callable and gives
`NULL` without running anything. -/
def PyObject_CallFunction (callable : PyObject) (string cursor : PyValue) :
    Option PyValue × List Event :=
  match callable with
  | PyObject.Callable f => (f string cursor, [Event.python_call string cursor])
  | _ => (none, [])

/-- The function `typecast_call`: `args` must hold exactly a string and a
cursor; the C routine is used when there is one, else the host object in
`pcast`, else the result is `None`. Returns the result (`none` for `NULL`) and
the conversion code that ran. -/
def typecast_call (self : typecastObject) (args : List PyValue) :
    Option PyValue × List Event :=
  match args with
  | [string, cursor] =>
    match self.ccast with
    | some f => (f string cursor, [Event.c_cast string cursor])
    | none =>
      match self.pcast with
      | some p => PyObject_CallFunction p string cursor
      | none => (some PyValue.None, [])
  | _ => (none, [])

/-! ## Large objects -/

/-- Modelled from the spec: the struct `connectionObject` is declared in
`connection.h`, which is not among the sources; these are the three fields the
guards of `lobject.h` read (open/closed flag, isolation level with 0 for
autocommit, transaction mark). -/
structure connectionObject where
  closed : Int
  isolation_level : Int
  mark : Int
  deriving DecidableEq, Repr

/-- The struct `lobjectObject`. -/
structure lobjectObject where
  conn : Option connectionObject
  closed : Int
  mode : Int
  smode : Option String
  mark : Int
  oid : Nat
  fd : Int
  deriving DecidableEq, Repr

/-- The effect of a guard: control passes on, or the enclosing function
returns `NULL` with an exception set, or a `NULL` connection is read. -/
inductive Guard where
  | pass
  | raised (exc : PyExc) (msg : String)
  | undefined
  deriving DecidableEq, Repr

/-- The operand `(self)->conn && (self)->conn->closed` of the test in
`EXC_IF_LOBJ_CLOSED`. -/
def lobject_conn_closed (self : lobjectObject) : Bool :=
  match self.conn with
  | some conn => decide (conn.closed ≠ 0)
  | none => false

/-- The guard `EXC_IF_LOBJ_CLOSED`. -/
def EXC_IF_LOBJ_CLOSED (self : lobjectObject) : Guard :=
  if self.closed ≠ 0 ∨ lobject_conn_closed self = true then
    Guard.raised PyExc.InterfaceError "lobject already closed"
  else Guard.pass

/-- The guard `EXC_IF_LOBJ_LEVEL0`. -/
def EXC_IF_LOBJ_LEVEL0 (self : lobjectObject) : Guard :=
  match self.conn with
  | none => Guard.undefined
  | some conn =>
    if conn.isolation_level = 0 then
      Guard.raised PyExc.ProgrammingError "can't use a lobject outside of transactions"
    else Guard.pass

/-- The guard `EXC_IF_LOBJ_UNMARKED`. -/
def EXC_IF_LOBJ_UNMARKED (self : lobjectObject) : Guard :=
  match self.conn with
  | none => Guard.undefined
  | some conn =>
    if conn.mark ≠ self.mark then
      Guard.raised PyExc.ProgrammingError "lobject isn't valid anymore"
    else Guard.pass

/-- Two guards one after the other: the second runs only when the first
passes. -/
def Guard.andThen (first second : Guard) : Guard :=
  match first with
  | Guard.pass => second
  | g => g

/-! ## Sample inputs -/

/-- Empty dictionaries and no default casters. -/
def sample_globals : Globals :=
  { psyco_types := PyDict_New, psyco_default_cast := none,
    psyco_binary_types := PyDict_New, psyco_default_binary_cast := none }

/-- An anonymous caster of the identifiers 20 and 23. -/
def sample_c1 : typecastObject := typecast_new none [20, 23] none

/-- An anonymous caster of the identifiers 23 and 21. -/
def sample_c2 : typecastObject := typecast_new none [23, 21] none

/-- A user-supplied callable that answers every input, `None` included, with
the string `seen`. -/
def sample_callable : PyValue → PyValue → Option PyValue :=
  fun _ _ => some (PyValue.PyString "seen")

/-- A caster of identifier 705 built the way `typecast_from_python` builds it
around `sample_callable`. -/
def sample_user_caster : typecastObject :=
  typecast_new (some (PyObject.Value (PyValue.PyString "SEEN"))) [705]
    (some (PyObject.Callable sample_callable))

/-- An open connection inside a transaction, at mark 8. -/
def sample_conn : connectionObject := { closed := 0, isolation_level := 1, mark := 8 }

/-- A connection in autocommit mode. -/
def sample_conn_level0 : connectionObject := { closed := 0, isolation_level := 0, mark := 8 }

/-- A handle opened at mark 7 and never closed, on `sample_conn`. -/
def sample_lobject : lobjectObject :=
  { conn := some sample_conn, closed := 0, mode := 1, smode := some "r", mark := 7,
    oid := 16384, fd := 0 }

/-- A handle on the autocommit connection. -/
def sample_lobject_level0 : lobjectObject :=
  { conn := some sample_conn_level0, closed := 0, mode := 1, smode := some "r", mark := 8,
    oid := 16384, fd := 0 }

/-- An anonymous caster of the identifiers 21, 20 and 23. -/
def sample_c3 : typecastObject := typecast_new none [21, 20, 23] none

/-- The anonymous caster of the single identifier 23. -/
def sample_single : typecastObject := typecast_new none [23] none

/-- An initialiser entry for the identifiers 20, 23 and 21. -/
def sample_INTEGER : typecastObject_initlist :=
  { name := some "INTEGER", values := { sym := "sample_INTEGER_types", cells := [20, 23, 21, 0] },
    cast := some typecast_STRING_cast }

/-- A table in the shape of `typecast_builtins`: one entry for the identifiers
20, 23 and 21, then the entry that ends the table. -/
def sample_builtins : List typecastObject_initlist :=
  [sample_INTEGER, { name := none, values := { sym := "", cells := [] }, cast := none }]

/-- An array in the place of `typecast_BINARY_types`. -/
def sample_BINARY_types : LongArray := { sym := "sample_BINARY_types", cells := [17, 0] }

/-! ## Dictionaries: reading after writing -/

theorem PyDict_GetItem_SetItem {κ α : Type} [DecidableEq κ] (d : PyDict κ α) (key : κ)
    (value : α) (k : κ) :
    PyDict_GetItem (PyDict_SetItem d key value) k =
      if key = k then some value else PyDict_GetItem d k := by
  induction d with
  | nil =>
    simp [PyDict_SetItem, PyDict_GetItem]
  | cons e rest ih =>
    obtain ⟨k0, x0⟩ := e
    by_cases h0 : k0 = key
    · subst h0
      by_cases h1 : k0 = k <;> simp [PyDict_SetItem, PyDict_GetItem, h1]
    · by_cases h1 : k0 = k
      · subst h1
        have h2 : ¬ key = k0 := fun h => h0 h.symm
        simp [PyDict_SetItem, PyDict_GetItem, h0, h2]
      · simp [PyDict_SetItem, PyDict_GetItem, h0, h1, ih]

theorem typecast_add_loop_selected (obj : typecastObject) (binary : Int) (vals : List Int)
    (g : Globals) (t : Int) :
    PyDict_GetItem (selected (typecast_add_loop obj binary vals g) binary) t =
      if t ∈ vals then some obj else PyDict_GetItem (selected g binary) t := by
  induction vals generalizing g with
  | nil => simp [typecast_add_loop]
  | cons val rest ih =>
    by_cases hb : binary = 0
    · subst hb
      simp only [typecast_add_loop, ne_eq, not_true_eq_false, if_false]
      rw [ih]
      by_cases hr : t ∈ rest
      · simp [hr]
      · by_cases hv : val = t
        · subst hv
          simp [hr, selected, PyDict_GetItem_SetItem]
        · have hv2 : ¬ t = val := fun h => hv h.symm
          simp [hr, hv, hv2, selected, PyDict_GetItem_SetItem]
    · simp only [typecast_add_loop, ne_eq, hb, not_false_eq_true, if_true]
      rw [ih]
      by_cases hr : t ∈ rest
      · simp [hr]
      · by_cases hv : val = t
        · subst hv
          simp [hr, hb, selected, PyDict_GetItem_SetItem]
        · have hv2 : ¬ t = val := fun h => hv h.symm
          simp [hr, hb, hv, hv2, selected, PyDict_GetItem_SetItem]

theorem typecast_add_loop_unselected (obj : typecastObject) (binary : Int) (vals : List Int)
    (g : Globals) :
    unselected (typecast_add_loop obj binary vals g) binary = unselected g binary := by
  induction vals generalizing g with
  | nil => simp [typecast_add_loop]
  | cons val rest ih =>
    by_cases hb : binary = 0
    · subst hb
      simp only [typecast_add_loop, ne_eq, not_true_eq_false, if_false]
      rw [ih]
      simp [unselected]
    · simp only [typecast_add_loop, ne_eq, hb, not_false_eq_true, if_true]
      rw [ih]
      simp [unselected, hb]

/-! ## Registration -/

/-- C1: after `typecast_add(c, binary)` every identifier of `c.values` is bound
to `c` in the dictionary the flag selects (`psyco_types` for 0,
`psyco_binary_types` otherwise). -/
theorem typecast_add_binds_values (g : Globals) (c : typecastObject) (binary : Int) (t : Int)
    (ht : t ∈ c.values) :
    PyDict_GetItem (selected (typecast_add g c binary).2 binary) t = some c := by
  simp [typecast_add, typecast_add_loop_selected, ht]

theorem typecast_add_binds_values_witness :
    (23 : Int) ∈ sample_c1.values ∧
      PyDict_GetItem (selected (typecast_add sample_globals sample_c1 1).2 1) 23
        = some sample_c1 :=
  ⟨by decide, typecast_add_binds_values sample_globals sample_c1 1 23 (by decide)⟩

/-- C3: `typecast_add(c2, binary)` leaves the binding of every identifier
outside `c2.values` as it was in the selected dictionary, so the identifiers a
caster `c1` registered before does not share with `c2` stay bound to `c1`, and
it leaves the dictionary of the other format unchanged. -/
theorem typecast_add_frame (g : Globals) (c1 c2 : typecastObject) (binary : Int) :
    (∀ t, t ∉ c2.values →
      PyDict_GetItem (selected (typecast_add g c2 binary).2 binary) t
        = PyDict_GetItem (selected g binary) t) ∧
    (∀ t, t ∈ c1.values → t ∉ c2.values →
      PyDict_GetItem
        (selected (typecast_add (typecast_add g c1 binary).2 c2 binary).2 binary) t
        = some c1) ∧
    unselected (typecast_add g c2 binary).2 binary = unselected g binary := by
  refine ⟨?_, ?_, ?_⟩
  · intro t ht
    simp [typecast_add, typecast_add_loop_selected, ht]
  · intro t h1 h2
    simp [typecast_add, typecast_add_loop_selected, h1, h2]
  · simp [typecast_add, typecast_add_loop_unselected]

theorem typecast_add_frame_witness :
    PyDict_GetItem
      (selected (typecast_add (typecast_add sample_globals sample_c1 0).2 sample_c2 0).2 0) 20
      = some sample_c1 :=
  (typecast_add_frame sample_globals sample_c1 sample_c2 0).2.1 20 (by decide) (by decide)

/-! ## Calling a caster on `None` -/

/-- C2, as the code has it: on the SQL-null marker `None` a caster with no
conversion returns `None` and runs nothing; a caster with a C routine returns
what that routine returns for `None`, and no host callable is invoked; a caster
with a user-supplied callable invokes it once, on `None` and the cursor, and
returns its result. -/
theorem typecast_call_on_None (self : typecastObject) (cursor : PyValue) :
    (self.ccast = none → self.pcast = none →
      typecast_call self [PyValue.None, cursor] = (some PyValue.None, [])) ∧
    (∀ f, self.ccast = some f →
      typecast_call self [PyValue.None, cursor]
        = (f PyValue.None cursor, [Event.c_cast PyValue.None cursor])) ∧
    (∀ f, self.ccast = none → self.pcast = some (PyObject.Callable f) →
      typecast_call self [PyValue.None, cursor]
        = (f PyValue.None cursor, [Event.python_call PyValue.None cursor])) := by
  refine ⟨?_, ?_, ?_⟩
  · intro hc hp
    simp [typecast_call, hc, hp]
  · intro f hc
    simp [typecast_call, hc]
  · intro f hc hp
    simp [typecast_call, hc, hp, PyObject_CallFunction]

theorem typecast_call_on_None_witness :
    typecast_call sample_user_caster [PyValue.None, PyValue.Object 0]
      = (sample_callable PyValue.None (PyValue.Object 0),
          [Event.python_call PyValue.None (PyValue.Object 0)]) :=
  (typecast_call_on_None sample_user_caster (PyValue.Object 0)).2.2 sample_callable rfl rfl

/-- C2 fails as stated: called on `None`, the caster around `sample_callable`
invokes the callable and returns its answer, which is not `None`. -/
theorem typecast_call_on_None_invokes_callable :
    (typecast_call sample_user_caster [PyValue.None, PyValue.Object 0]).1
        = some (PyValue.PyString "seen") ∧
      (typecast_call sample_user_caster [PyValue.None, PyValue.Object 0]).1
        ≠ some PyValue.None ∧
      Event.python_call PyValue.None (PyValue.Object 0)
        ∈ (typecast_call sample_user_caster [PyValue.None, PyValue.Object 0]).2 := by
  decide

/-! ## Guards of the large-object type -/

/-- C4: the closed check and then the validity check both pass exactly when the
handle's closed flag is 0, it has a connection whose closed flag is 0, and that
connection's mark equals the handle's; a handle never closed, on an open
connection whose mark is one more than the handle's, passes the closed check
and fails the validity check with the message `lobject isn't valid anymore`. -/
theorem lobject_closed_then_unmarked (self : lobjectObject) :
    (((EXC_IF_LOBJ_CLOSED self).andThen (EXC_IF_LOBJ_UNMARKED self) = Guard.pass ↔
        self.closed = 0 ∧ ∃ conn, self.conn = some conn ∧ conn.closed = 0 ∧
          conn.mark = self.mark) ∧
      ((EXC_IF_LOBJ_CLOSED self = Guard.pass ∧ EXC_IF_LOBJ_UNMARKED self = Guard.pass) ↔
        self.closed = 0 ∧ ∃ conn, self.conn = some conn ∧ conn.closed = 0 ∧
          conn.mark = self.mark)) ∧
    (∀ conn, self.conn = some conn → self.closed = 0 → conn.closed = 0 →
      conn.mark = self.mark + 1 →
      EXC_IF_LOBJ_CLOSED self = Guard.pass ∧
      EXC_IF_LOBJ_UNMARKED self
        = Guard.raised PyExc.ProgrammingError "lobject isn't valid anymore" ∧
      (EXC_IF_LOBJ_CLOSED self).andThen (EXC_IF_LOBJ_UNMARKED self)
        = Guard.raised PyExc.ProgrammingError "lobject isn't valid anymore") := by
  obtain ⟨conn, closed, mode, smode, mark, oid, fd⟩ := self
  cases conn with
  | none =>
    by_cases hc : closed = 0 <;>
      simp [EXC_IF_LOBJ_CLOSED, EXC_IF_LOBJ_UNMARKED, Guard.andThen, lobject_conn_closed, hc]
  | some c =>
    by_cases hc : closed = 0 <;> by_cases hcc : c.closed = 0 <;>
      by_cases hm : c.mark = mark <;>
      simp [EXC_IF_LOBJ_CLOSED, EXC_IF_LOBJ_UNMARKED, Guard.andThen, lobject_conn_closed,
        hc, hcc, hm]

theorem lobject_closed_then_unmarked_witness :
    EXC_IF_LOBJ_CLOSED sample_lobject = Guard.pass ∧
      EXC_IF_LOBJ_UNMARKED sample_lobject
        = Guard.raised PyExc.ProgrammingError "lobject isn't valid anymore" ∧
      (EXC_IF_LOBJ_CLOSED sample_lobject).andThen (EXC_IF_LOBJ_UNMARKED sample_lobject)
        = Guard.raised PyExc.ProgrammingError "lobject isn't valid anymore" :=
  (lobject_closed_then_unmarked sample_lobject).2 sample_conn rfl rfl rfl (by decide)

/-- C5: on a connection whose `isolation_level` is 0 the transaction check
fails, with the message `can't use a lobject outside of transactions`, whatever
the other fields of the handle are; on a connection with any other
`isolation_level` it passes. -/
theorem lobject_level0 (self : lobjectObject) (conn : connectionObject)
    (hconn : self.conn = some conn) :
    (conn.isolation_level = 0 →
      EXC_IF_LOBJ_LEVEL0 self
        = Guard.raised PyExc.ProgrammingError "can't use a lobject outside of transactions") ∧
    (conn.isolation_level ≠ 0 → EXC_IF_LOBJ_LEVEL0 self = Guard.pass) := by
  constructor
  · intro h
    simp [EXC_IF_LOBJ_LEVEL0, hconn, h]
  · intro h
    simp [EXC_IF_LOBJ_LEVEL0, hconn, h]

theorem lobject_level0_witness :
    EXC_IF_LOBJ_LEVEL0 sample_lobject_level0
        = Guard.raised PyExc.ProgrammingError "can't use a lobject outside of transactions" ∧
      EXC_IF_LOBJ_LEVEL0 sample_lobject = Guard.pass :=
  ⟨(lobject_level0 sample_lobject_level0 sample_conn_level0 rfl).1 rfl,
    (lobject_level0 sample_lobject sample_conn rfl).2 (by decide)⟩

theorem PySequence_Contains_not_neg (t : List Int) (item : Int) :
    ¬ PySequence_Contains t item < 0 := by
  unfold PySequence_Contains
  split <;> simp

theorem PySequence_Contains_eq_one (t : List Int) (item : Int) :
    PySequence_Contains t item = 1 ↔ item ∈ t := by
  unfold PySequence_Contains
  split <;> simp [*]

theorem typecast_cmp_direct (fuel : Nat) (self v : typecastObject) (first : Int)
    (rest : List Int) (hv : v.values = first :: rest) (hx : ¬ typecast_cmp_exchange self v) :
    typecast_cmp (fuel + 1) self v
      = some (CmpResult.ret (if first ∈ self.values then 0 else 1)) := by
  simp only [typecast_cmp, hx, if_false, PyTuple_GET_ITEM, hv, List.get?_cons_zero,
    PySequence_Contains_not_neg, PySequence_Contains_eq_one]

theorem typecast_cmp_direct_empty (fuel : Nat) (self v : typecastObject)
    (hv : v.values = []) : typecast_cmp (fuel + 1) self v = some CmpResult.undefined := by
  have hx : ¬ typecast_cmp_exchange self v := by
    simp [typecast_cmp_exchange, PyObject_Length, hv]
  simp [typecast_cmp, hx, PyTuple_GET_ITEM, hv]

/-- C7, as the code has it: for casters `a` and `b` each bound to more than one
identifier, `typecast_cmp(a, b)` returns 0 when the first identifier of `b` is
among the identifiers of `a`, and 1 when it is not. -/
theorem typecast_cmp_multi (a b : typecastObject) (ha : 1 < a.values.length)
    (hb : 1 < b.values.length) (fuel : Nat) (hfuel : 1 ≤ fuel) :
    ∃ first, b.values.head? = some first ∧
      typecast_cmp fuel a b = some (CmpResult.ret (if first ∈ a.values then 0 else 1)) := by
  obtain ⟨k, rfl⟩ : ∃ k, fuel = k + 1 := ⟨fuel - 1, by omega⟩
  have hx : ¬ typecast_cmp_exchange a b := by
    simp only [typecast_cmp_exchange, PyObject_Length]
    omega
  cases hbv : b.values with
  | nil => simp [hbv] at hb
  | cons first rest =>
    exact ⟨first, by simp, typecast_cmp_direct k a b first rest hbv hx⟩

theorem typecast_cmp_multi_witness :
    ∃ first, sample_c2.values.head? = some first ∧
      typecast_cmp 2 sample_c1 sample_c2
        = some (CmpResult.ret (if first ∈ sample_c1.values then 0 else 1)) :=
  typecast_cmp_multi sample_c1 sample_c2 (by decide) (by decide) 2 (by decide)

/-- C7 fails as stated, in both directions: the casters of (20, 23) and
(23, 21) compare equal though neither identifier set contains the other, and
the casters of (20, 23) and (21, 20, 23) compare unequal though the first set
is contained in the second. -/
theorem typecast_cmp_multi_not_subset :
    (1 < sample_c1.values.length ∧ 1 < sample_c2.values.length ∧
      typecast_cmp 2 sample_c1 sample_c2 = some (CmpResult.ret 0) ∧
      ¬ sample_c1.values ⊆ sample_c2.values ∧ ¬ sample_c2.values ⊆ sample_c1.values) ∧
    (1 < sample_c3.values.length ∧
      typecast_cmp 2 sample_c1 sample_c3 = some (CmpResult.ret 1) ∧
      sample_c1.values ⊆ sample_c3.values) := by
  decide

/-- C9: when `c` has at least one identifier and `s` exactly the one
identifier `n`, as the anonymous caster `typecast_coerce` builds from the
integer `n` has, `typecast_cmp(c, s)` and `typecast_cmp(s, c)` return the same
result: 0 when `n` is among the identifiers of `c`, 1 otherwise. -/
theorem typecast_cmp_single (c s : typecastObject) (n : Int) (hc : c.values ≠ [])
    (hs : s.values = [n]) (fuel : Nat) (hfuel : 2 ≤ fuel) :
    typecast_cmp fuel c s = typecast_cmp fuel s c ∧
    typecast_cmp fuel c s = some (CmpResult.ret (if n ∈ c.values then 0 else 1)) ∧
    typecast_coerce (Operand.typecast c) (Operand.object (PyObject.Value (PyValue.PyInt n)))
      = Except.ok (Operand.typecast c, Operand.typecast (typecast_new none [n] none)) ∧
    (typecast_new none [n] none).values = [n] := by
  obtain ⟨k, rfl⟩ : ∃ k, fuel = k + 2 := ⟨fuel - 2, by omega⟩
  have hcs : ¬ typecast_cmp_exchange c s := by
    simp [typecast_cmp_exchange, PyObject_Length, hs]
  have h1 : ∀ j, typecast_cmp (j + 1) c s
      = some (CmpResult.ret (if n ∈ c.values then 0 else 1)) :=
    fun j => typecast_cmp_direct j c s n [] hs hcs
  have h2 : typecast_cmp (k + 2) s c
      = some (CmpResult.ret (if n ∈ c.values then 0 else 1)) := by
    by_cases hx : typecast_cmp_exchange s c
    · rw [typecast_cmp, if_pos hx]
      exact h1 k
    · cases hcv : c.values with
      | nil => exact absurd hcv hc
      | cons m rest =>
        have hrest : rest = [] := by
          cases rest with
          | nil => rfl
          | cons m2 rest2 =>
            exfalso
            apply hx
            simp [typecast_cmp_exchange, PyObject_Length, hs, hcv]
        subst hrest
        rw [typecast_cmp_direct (k + 1) s c m [] hcv hx, hs]
        by_cases hmn : m = n
        · subst hmn
          simp
        · have hnm : ¬ n = m := fun h => hmn h.symm
          simp [hmn, hnm]
  refine ⟨?_, h1 (k + 1), rfl, rfl⟩
  rw [h1 (k + 1), h2]

theorem typecast_cmp_single_witness :
    typecast_cmp 2 sample_c3 sample_single = typecast_cmp 2 sample_single sample_c3 ∧
      typecast_cmp 2 sample_c3 sample_single
        = some (CmpResult.ret (if (23 : Int) ∈ sample_c3.values then 0 else 1)) :=
  ⟨(typecast_cmp_single sample_c3 sample_single 23 (by decide) rfl 2 (by decide)).1,
    (typecast_cmp_single sample_c3 sample_single 23 (by decide) rfl 2 (by decide)).2.1⟩

/-- C10: `typecast_cmp` returns on every pair of casters, with at most one
nested call: two activations always reach a result; when the arguments are
exchanged, the new second argument has exactly one identifier, the exchange
condition does not hold for the exchanged pair, and that call returns without
calling again; when they are not exchanged, the first activation returns. -/
theorem typecast_cmp_terminates (self v : typecastObject) :
    (∃ r, ∀ fuel, 2 ≤ fuel → typecast_cmp fuel self v = some r) ∧
    (typecast_cmp_exchange self v →
      PyObject_Length self.values = 1 ∧ ¬ typecast_cmp_exchange v self ∧
        ∃ r, typecast_cmp 1 v self = some r) ∧
    (¬ typecast_cmp_exchange self v → ∃ r, typecast_cmp 1 self v = some r) := by
  have direct : ∀ (a b : typecastObject), ¬ typecast_cmp_exchange a b →
      ∃ r, ∀ j, typecast_cmp (j + 1) a b = some r := by
    intro a b hx
    cases hb : b.values with
    | nil => exact ⟨_, fun j => typecast_cmp_direct_empty j a b hb⟩
    | cons first rest => exact ⟨_, fun j => typecast_cmp_direct j a b first rest hb hx⟩
  have back : typecast_cmp_exchange self v → ¬ typecast_cmp_exchange v self := by
    intro h h2
    simp only [typecast_cmp_exchange] at h h2
    omega
  refine ⟨?_, ?_, ?_⟩
  · by_cases hx : typecast_cmp_exchange self v
    · obtain ⟨r, hr⟩ := direct v self (back hx)
      refine ⟨r, fun fuel hfuel => ?_⟩
      obtain ⟨k, rfl⟩ : ∃ k, fuel = k + 2 := ⟨fuel - 2, by omega⟩
      rw [typecast_cmp, if_pos hx]
      exact hr k
    · obtain ⟨r, hr⟩ := direct self v hx
      refine ⟨r, fun fuel hfuel => ?_⟩
      obtain ⟨k, rfl⟩ : ∃ k, fuel = k + 1 := ⟨fuel - 1, by omega⟩
      exact hr k
  · intro hx
    obtain ⟨r, hr⟩ := direct v self (back hx)
    exact ⟨hx.2, back hx, r, hr 0⟩
  · intro hx
    obtain ⟨r, hr⟩ := direct self v hx
    exact ⟨r, hr 0⟩

theorem typecast_cmp_terminates_witness :
    typecast_cmp_exchange sample_single sample_c3 ∧
      PyObject_Length sample_single.values = 1 ∧
      ¬ typecast_cmp_exchange sample_c3 sample_single ∧
      ∃ r, typecast_cmp 1 sample_c3 sample_single = some r :=
  ⟨by decide,
    (typecast_cmp_terminates sample_single sample_c3).2.1 (by decide)⟩

/-! ## The identifiers of a constructed caster -/

theorem typecast_from_c_len_take (cells : List Int) (len : Nat)
    (h : typecast_from_c_len cells = some len) :
    cells.take len = cells.takeWhile (fun x => decide (x ≠ 0)) := by
  induction cells generalizing len with
  | nil => simp [typecast_from_c_len] at h
  | cons x rest ih =>
    by_cases hx : x = 0
    · subst hx
      simp [typecast_from_c_len] at h
      subst h
      simp
    · cases hrest : typecast_from_c_len rest with
      | none => simp [typecast_from_c_len, hx, hrest] at h
      | some m =>
        simp [typecast_from_c_len, hx, hrest] at h
        subst h
        simp [List.takeWhile, hx, ih m hrest]

theorem typecast_from_c_values (type : typecastObject_initlist) (obj : typecastObject)
    (h : typecast_from_c type = some obj) :
    obj.values = type.values.cells.takeWhile (fun x => decide (x ≠ 0)) := by
  unfold typecast_from_c at h
  split at h
  · rename_i len name hlen hname
    simp only [Option.some.injEq] at h
    subst h
    simp [typecast_new, typecast_from_c_len_take _ _ hlen]
  · simp at h

theorem typecast_init_builtins_rc (bin : LongArray) (tbl : List typecastObject_initlist)
    (g : Globals) (dict : PyDict String ModuleValue)
    (r : Int × Globals × PyDict String ModuleValue)
    (h : typecast_init_builtins bin tbl g dict = some r) : r.1 = 0 := by
  induction tbl generalizing g dict with
  | nil => simp [typecast_init_builtins] at h
  | cons e rest ih =>
    unfold typecast_init_builtins at h
    split at h
    · simp only [Option.some.injEq] at h
      subst h
      rfl
    · split at h
      · simp at h
      · simp only [typecast_add, ne_eq, not_true_eq_false, if_false] at h
        exact ih _ _ h

/-- C8, as the code has it: a caster built by `typecast_from_c` holds the cells
of the initialiser's array before the first zero, hence at least one identifier
exactly when the first cell is not zero; the default caster built from
`typecast_default`, also the one `typecast_init` stores in
`psyco_default_cast`, holds none; a caster built by `typecast_from_python`
holds exactly the tuple it was given. -/
theorem typecast_constructors_values :
    (∀ type obj, typecast_from_c type = some obj →
      obj.values = type.values.cells.takeWhile (fun x => decide (x ≠ 0)) ∧
      (obj.values ≠ [] ↔ ∃ x, type.values.cells.head? = some x ∧ x ≠ 0)) ∧
    (typecast_from_c typecast_default).map (fun d => d.values) = some [] ∧
    (∀ builtins bin mx py g0 dict r,
      typecast_init builtins bin mx py g0 dict = some r →
      r.1 = 0 ∧ r.2.1.psyco_default_cast.map (fun d => d.values) = some []) ∧
    (∀ v name castobj obj,
      typecast_from_python (some (PyObject.Tuple v)) name castobj = Outcome.ok obj →
      obj.values = v) := by
  refine ⟨?_, rfl, ?_, ?_⟩
  · intro type obj h
    have hv := typecast_from_c_values type obj h
    refine ⟨hv, ?_⟩
    rw [hv]
    cases type.values.cells with
    | nil => simp
    | cons x rest =>
      by_cases hx : x = 0 <;> simp [List.takeWhile, hx]
  · intro builtins bin mx py g0 dict r h
    unfold typecast_init at h
    simp only at h
    split at h
    · simp at h
    · rename_i rc g2 dict3 hb
      have hrc : rc = 0 := typecast_init_builtins_rc _ _ _ _ _ hb
      subst hrc
      simp only [ne_eq, not_true_eq_false, if_false] at h
      split at h
      · simp at h
      · rename_i d hd
        have hdv : d.values = [] := by
          have := typecast_from_c_values _ _ hd
          simpa [typecast_default, typecast_default_DEFAULT] using this
        split at h
        · simp at h
        · split at h
          · simp at h
          · simp only [Option.some.injEq] at h
            subst h
            simp [hdv]
  · intro v name castobj obj h
    simp only [typecast_from_python] at h
    split at h
    · cases h
    · simp only [Outcome.ok.injEq] at h
      subst h
      rfl
    · cases h

theorem typecast_constructors_values_witness :
    (∃ r, typecast_init sample_builtins sample_BINARY_types none none sample_globals PyDict_New
        = some r ∧
      r.1 = 0 ∧ r.2.1.psyco_default_cast.map (fun d => d.values) = some []) ∧
    (∃ obj, typecast_from_c sample_INTEGER = some obj ∧
      obj.values = sample_INTEGER.values.cells.takeWhile (fun x => decide (x ≠ 0)) ∧
      obj.values = [20, 23, 21]) ∧
    (∃ obj, typecast_from_python (some (PyObject.Tuple [705]))
        (some (PyObject.Value (PyValue.PyString "SEEN")))
        (some (PyObject.Callable sample_callable)) = Outcome.ok obj ∧
      obj.values = [705]) :=
  ⟨⟨_, rfl, typecast_constructors_values.2.2.1 sample_builtins sample_BINARY_types none none
      sample_globals PyDict_New _ rfl⟩,
    ⟨_, rfl, (typecast_constructors_values.1 sample_INTEGER _ rfl).1, rfl⟩,
    ⟨_, rfl, typecast_constructors_values.2.2.2 [705]
      (some (PyObject.Value (PyValue.PyString "SEEN")))
      (some (PyObject.Callable sample_callable)) _ rfl⟩⟩

/-- C8 fails as stated: the default caster, built by `typecast_from_c` from
`typecast_default`, has an empty `values` tuple, and so has the caster
`typecast_from_python` builds from an empty tuple. -/
theorem typecast_default_has_no_values :
    (typecast_from_c typecast_default).map (fun d => d.values.length) = some 0 ∧
    ∃ obj, typecast_from_python (some (PyObject.Tuple []))
        (some (PyObject.Value (PyValue.PyString "EMPTY")))
        (some (PyObject.Callable sample_callable)) = Outcome.ok obj ∧
      obj.values.length = 0 :=
  ⟨rfl, _, rfl, rfl⟩

end Psycopg
